import Mathlib

/-!
Verification of the benchmarking core of the `high-dimensional-statistics`
repository (`boosting.ipynb`): the helper `score_and_time`, the benchmark
runner `ml_benchmark`, and the ad-hoc cross-dataset aggregation cell
`df_benchmark_total`.

The embedding models the external machine-learning library
(`model_selection.cross_val_score` together with the model objects) as an
oracle acting on an explicit environment (process-time clock and global
random-number-generator state); an exception raised by the library is
modelled by the oracle returning `none`.  Real numbers stand for the
floating-point values of the source; `round(x, 3)` is modelled by exact
round-half-to-even on rationals embedded in `ℝ`.
-/

namespace Boosting

noncomputable section

/-- Round-half-to-even of a real number to the nearest integer: the tie rule
of Python's built-in `round`. -/
def roundHalfEven (x : ℝ) : ℤ :=
  if Int.fract x < 1 / 2 then ⌊x⌋
  else if 1 / 2 < Int.fract x then ⌊x⌋ + 1
  else if Even ⌊x⌋ then ⌊x⌋ else ⌊x⌋ + 1

/-- Python's `round(x, 3)`: round to 3 decimal digits. -/
def round3 (x : ℝ) : ℝ := (roundHalfEven (1000 * x) : ℝ) / 1000

/-- numpy's `scores.mean()`: the arithmetic mean of the array entries. -/
def npMean (s : List ℝ) : ℝ := s.sum / (s.length : ℝ)

/-- numpy's `scores.var()` with the default `ddof=0`: the mean squared
deviation from the mean (population variance), the square of `scores.std()`. -/
def npVar (s : List ℝ) : ℝ :=
  (s.map (fun x => (x - npMean s) ^ 2)).sum / (s.length : ℝ)

/-- numpy's `scores.std()` with the default `ddof=0`: the population
standard deviation. -/
def npStd (s : List ℝ) : ℝ := Real.sqrt (npVar s)

/-- Modelled from the spec: the "sample standard deviation of the fold
scores", i.e. the Bessel-corrected (`ddof=1`) standard deviation, which is
not computed anywhere under `src/` (the source calls `scores.std()` with
numpy's default `ddof=0`). -/
def specSampleStd (s : List ℝ) : ℝ :=
  Real.sqrt ((s.map (fun x => (x - s.sum / (s.length : ℝ)) ^ 2)).sum /
    ((s.length : ℝ) - 1))

/-- The population standard deviation written in the textbook form
`sqrt(mean of squares - square of mean)`; used to state the amended
version of the spread claim against an independently phrased formula. -/
def specPopStd (s : List ℝ) : ℝ :=
  Real.sqrt ((s.map (fun x => x ^ 2)).sum / (s.length : ℝ) -
    (s.sum / (s.length : ℝ)) ^ 2)

/- The five classifier configurations built inside `ml_benchmark`.  They are
opaque to the repository's code: only their identity (constructor arguments)
matters, the fitting itself is done by the external library. -/

inductive Algo
  | decisionTree
  | randomForest
  | adaBoost
  | gradientBoosting
  | xgboost
deriving DecidableEq

/-- A classifier configuration: the algorithm together with the constructor
arguments appearing in `ml_benchmark`.  A field is `none` when the
corresponding keyword argument is left at its library default. -/
structure ModelConfig where
  algo : Algo
  n_estimators : Option ℕ
  max_depth : Option ℕ
  random_state : Option ℕ
  base_estimator_max_depth : Option ℕ
  algorithm : Option String
deriving DecidableEq

/-- `DecisionTreeClassifier(random_state=0)` -/
def dtModel : ModelConfig :=
  ⟨Algo.decisionTree, none, none, some 0, none, none⟩

/-- `RandomForestClassifier(n_estimators=50, max_depth=2, random_state=0)` -/
def rfModel : ModelConfig :=
  ⟨Algo.randomForest, some 50, some 2, some 0, none, none⟩

/-- `AdaBoostClassifier(DecisionTreeClassifier(max_depth=2), n_estimators=50,
algorithm='SAMME', random_state=0)` -/
def adaModel : ModelConfig :=
  ⟨Algo.adaBoost, some 50, none, some 0, some 2, some ("SAMME")⟩

/-- `GradientBoostingClassifier(n_estimators=50, max_depth=2)` — note that no
`random_state` argument is passed for this entry. -/
def gbModel : ModelConfig :=
  ⟨Algo.gradientBoosting, some 50, some 2, none, none, none⟩

/-- `xgb.XGBClassifier(n_estimators=50, max_depth=2, random_state=0)` -/
def xgbModel : ModelConfig :=
  ⟨Algo.xgboost, some 50, some 2, some 0, none, none⟩

/-- The five configurations in the order `ml_benchmark` evaluates them. -/
def rosterConfigs : List ModelConfig :=
  [dtModel, rfModel, adaModel, gbModel, xgbModel]

/-- The `rows_name` list of `ml_benchmark`. -/
def rows_name : List String :=
  ["DecisionTreeClassifier", "RandomForestClassifier", "AdaBoostClassifier",
   "GradientBoostingClassifier", "XGBoost"]

/-- The `columns_name` list of `ml_benchmark`. -/
def columns_name : List String :=
  ["Approx. mean of scores", "Approx. variance of scores", "Processing time"]

/-- The in-memory dataset: the feature matrix `X_dataset` and the label
array `y_dataset`. -/
structure DatasetState where
  x_data : List (List ℝ)
  y_data : List ℕ
deriving DecidableEq

/-- The ambient machine state that the external library reads and advances:
the process-time clock (`time`, read by `process_time()`) and the global
random-number-generator state (`rng`, consumed by configurations that were
given no fixed `random_state`). -/
structure EnvState where
  time : ℝ
  rng : ℕ

/-- The full mutable state a benchmark run can touch: the dataset arrays and
the ambient environment. -/
structure World where
  data : DatasetState
  env : EnvState

/-- The external `model_selection.cross_val_score(model, X, y, cv=cv)`: it
reads the model configuration, the dataset and the fold count, may advance
the clock and the RNG, and returns one score per fold.  `none` models the
library raising an exception. -/
def CvOracle : Type :=
  ModelConfig → DatasetState → ℕ → EnvState → Option (List ℝ × EnvState)

/-- The `part_l` triple built by `score_and_time`:
`[round(scores.mean(), 3), round(scores.std()*2, 3),
datetime.timedelta(seconds=t_stop-t_start)]`. -/
structure EvalResult where
  meanScore : ℝ
  scoreSpread : ℝ
  duration : ℝ

/-- Default row used with `List.getD` when indexing table data. -/
def row0 : EvalResult := ⟨0, 0, 0⟩

/-- Shallow embedding of `score_and_time(model, X_dataset, y_dataset, cv)`:
read the clock, run the external cross-validation, read the clock again, and
reduce the fold scores to the `part_l` triple.  An exception from the
library propagates as `none`. -/
def score_and_time (cvScore : CvOracle) (model : ModelConfig) (cv : ℕ)
    (w : World) : Option (EvalResult × World) :=
  let t_start := w.env.time
  match cvScore model w.data cv w.env with
  | none => none
  | some (scores, env1) =>
      let t_stop := env1.time
      some (⟨round3 (npMean scores), round3 (npStd scores * 2),
             t_stop - t_start⟩,
            ⟨w.data, env1⟩)

/-- The result table: `pd.DataFrame(l, index=rows_name, columns=columns_name)`
with one `EvalResult` triple per row. -/
structure DataFrame where
  index : List String
  columns : List String
  data : List EvalResult

/-- Shallow embedding of `ml_benchmark(X_dataset, y_dataset, cv)`: the five
classifiers are instantiated and evaluated one after another, each
evaluation starting in the world the previous one left behind; the five
triples are assembled into the labeled table.  A failing evaluation aborts
the whole run with `none`. -/
def ml_benchmark (cvScore : CvOracle) (cv : ℕ) (w : World) :
    Option (DataFrame × World) :=
  match score_and_time cvScore dtModel cv w with
  | none => none
  | some (r1, w1) =>
    match score_and_time cvScore rfModel cv w1 with
    | none => none
    | some (r2, w2) =>
      match score_and_time cvScore adaModel cv w2 with
      | none => none
      | some (r3, w3) =>
        match score_and_time cvScore gbModel cv w3 with
        | none => none
        | some (r4, w4) =>
          match score_and_time cvScore xgbModel cv w4 with
          | none => none
          | some (r5, w5) =>
              some (⟨rows_name, columns_name, [r1, r2, r3, r4, r5]⟩, w5)

/-- Sequential runner over a list of configurations: the evaluations run
strictly one after another, each starting in the world left by the previous
one; any failure aborts the whole run. -/
def runRoster (cvScore : CvOracle) (cv : ℕ) :
    List ModelConfig → World → Option (List EvalResult × World)
  | [], w => some ([], w)
  | m :: ms, w =>
      match score_and_time cvScore m cv w with
      | none => none
      | some (r, w1) =>
          match runRoster cvScore cv ms w1 with
          | none => none
          | some (rs, w2) => some (r :: rs, w2)

/-- The sequence of `(model, dataset, fold count)` argument triples that the
sequential run hands to `score_and_time`, in call order (the trace stops at
the first failing call). -/
def rosterCalls (cvScore : CvOracle) (cv : ℕ) :
    List ModelConfig → World → List (ModelConfig × DatasetState × ℕ)
  | [], _ => []
  | m :: ms, w =>
      (m, w.data, cv) ::
        (match score_and_time cvScore m cv w with
         | none => []
         | some (_, w1) => rosterCalls cvScore cv ms w1)

/-- Element-wise sum of two benchmark rows (one cell-wise `+` of pandas). -/
def addRow (a b : EvalResult) : EvalResult :=
  ⟨a.meanScore + b.meanScore, a.scoreSpread + b.scoreSpread,
   a.duration + b.duration⟩

/-- pandas `df1 + df2` on frames with identical row and column labels:
cell-wise addition. -/
def dfAdd (a b : DataFrame) : DataFrame :=
  ⟨a.index, a.columns, List.zipWith addRow a.data b.data⟩

/-- pandas `df.divide(k)`: divide every cell by the scalar `k`. -/
def dfDivide (a : DataFrame) (k : ℝ) : DataFrame :=
  ⟨a.index, a.columns,
   a.data.map (fun r => ⟨r.meanScore / k, r.scoreSpread / k, r.duration / k⟩)⟩

/-- The aggregation cell of the notebook:
`df_benchmark_total = (df_benchmark_1+df_benchmark_2+df_benchmark_3+df_benchmark_4).divide(4)`. -/
def df_benchmark_total (d1 d2 d3 d4 : DataFrame) : DataFrame :=
  dfDivide (dfAdd (dfAdd (dfAdd d1 d2) d3) d4) 4

/- Concrete oracles and worlds used to instantiate the theorems below. -/

/-- A demonstration world: a two-sample, one-feature dataset with two
classes, clock at 0, global RNG state 0. -/
def demoWorld : World := ⟨⟨[[0], [1]], [0, 1]⟩, ⟨0, 0⟩⟩

/-- The demonstration world with a different global RNG state (a second
invocation of the same notebook cell observes a different ambient state). -/
def demoWorld1 : World := ⟨⟨[[0], [1]], [0, 1]⟩, ⟨0, 1⟩⟩

/-- An external behavior returning fold scores `[0, 1]` and leaving the
environment unchanged. -/
def zeroOneOracle : CvOracle := fun _ _ _ env => some ([0, 1], env)

/-- An external behavior returning the single fold score `1` and leaving the
environment unchanged. -/
def oneOracle : CvOracle := fun _ _ _ env => some ([1], env)

/-- An external behavior returning the single fold score `1/2` and advancing
the clock by one second. -/
def halfOracle : CvOracle := fun _ _ _ env => some ([1 / 2], ⟨env.time + 1, env.rng⟩)

/-- An external behavior that always raises. -/
def failOracle : CvOracle := fun _ _ _ _ => none

/-- An external behavior under which every configuration carrying a fixed
`random_state` behaves deterministically (score `0`), while a configuration
carrying no seed draws its score from the ambient global RNG state.  It is
one possible behavior of a stochastic library consistent with seeding. -/
def seedSensitiveOracle : CvOracle := fun model _ _ env =>
  some ((if model.random_state = none then [((min env.rng 1 : ℕ) : ℝ)] else [0]), env)

/-- A five-row table whose mean-score cells all read `0.90`. -/
def demoDf1 : DataFrame :=
  ⟨rows_name, columns_name, List.replicate 5 ⟨9 / 10, 1 / 10, 1⟩⟩

/-- A five-row table whose mean-score cells all read `0.96`. -/
def demoDf2 : DataFrame :=
  ⟨rows_name, columns_name, List.replicate 5 ⟨24 / 25, 1 / 5, 3⟩⟩

/-- The table produced by `ml_benchmark` under `oneOracle`: every row reads
`(1, 0, 0)`. -/
def oneDf : DataFrame :=
  ⟨rows_name, columns_name, List.replicate 5 ⟨1, 0, 0⟩⟩

end

/- Basic lemmas about the rounding model. -/

theorem roundHalfEven_eq_of_bounds (n : ℤ) (x : ℝ)
    (h1 : (n : ℝ) - 1 / 2 < x) (h2 : x < (n : ℝ) + 1 / 2) :
    roundHalfEven x = n := by
  unfold roundHalfEven
  by_cases hx : (n : ℝ) ≤ x
  · have hfl : ⌊x⌋ = n := by
      rw [Int.floor_eq_iff]
      constructor
      · exact hx
      · linarith
    have hfr : Int.fract x < 1 / 2 := by
      rw [Int.fract]
      rw [hfl]
      linarith
    rw [if_pos hfr]
    exact hfl
  · push_neg at hx
    have hfl : ⌊x⌋ = n - 1 := by
      rw [Int.floor_eq_iff]
      constructor
      · push_cast
        linarith
      · push_cast
        linarith
    have hfr : 1 / 2 < Int.fract x := by
      rw [Int.fract, hfl]
      push_cast
      linarith
    have hfr2 : ¬ Int.fract x < 1 / 2 := by linarith
    rw [if_neg hfr2, if_pos hfr, hfl]
    omega

theorem roundHalfEven_intCast (n : ℤ) : roundHalfEven (n : ℝ) = n := by
  apply roundHalfEven_eq_of_bounds <;> linarith

theorem round3_eq_of_bounds (x : ℝ) (n : ℤ)
    (h1 : (n : ℝ) - 1 / 2 < 1000 * x) (h2 : 1000 * x < (n : ℝ) + 1 / 2) :
    round3 x = (n : ℝ) / 1000 := by
  unfold round3
  rw [roundHalfEven_eq_of_bounds n (1000 * x) h1 h2]

theorem round3_zero : round3 0 = 0 := by
  have h := round3_eq_of_bounds 0 0 (by norm_num) (by norm_num)
  simpa using h

theorem round3_one : round3 1 = 1 := by
  have h := round3_eq_of_bounds 1 1000 (by norm_num) (by norm_num)
  rw [h]
  norm_num

theorem round3_half : round3 (1 / 2) = 1 / 2 := by
  have h := round3_eq_of_bounds (1 / 2) 500 (by norm_num) (by norm_num)
  rw [h]
  norm_num

theorem floor_le_roundHalfEven (x : ℝ) : ⌊x⌋ ≤ roundHalfEven x := by
  unfold roundHalfEven
  split
  · exact le_refl _
  · split
    · exact Int.le.intro 1 rfl
    · split
      · exact le_refl _
      · exact Int.le.intro 1 rfl

theorem roundHalfEven_le_of_le (n : ℤ) (x : ℝ) (h : x ≤ (n : ℝ)) :
    roundHalfEven x ≤ n := by
  have hfloor : ⌊x⌋ ≤ n := by
    calc ⌊x⌋ ≤ ⌊(n : ℝ)⌋ := Int.floor_le_floor h
    _ = n := Int.floor_intCast n
  unfold roundHalfEven
  split
  · exact hfloor
  · rename_i hlt
    push_neg at hlt
    have hne : ⌊x⌋ ≠ n := by
      intro heq
      have : Int.fract x = x - (n : ℝ) := by rw [Int.fract, heq]
      have : Int.fract x ≤ 0 := by rw [this]; linarith
      linarith
    have hstrict : ⌊x⌋ + 1 ≤ n := by omega
    split
    · exact hstrict
    · split
      · exact hfloor
      · exact hstrict

theorem le_roundHalfEven_of_le (n : ℤ) (x : ℝ) (h : (n : ℝ) ≤ x) :
    n ≤ roundHalfEven x := by
  have hfloor : n ≤ ⌊x⌋ := by
    calc n = ⌊(n : ℝ)⌋ := (Int.floor_intCast n).symm
    _ ≤ ⌊x⌋ := Int.floor_le_floor h
  exact le_trans hfloor (floor_le_roundHalfEven x)

theorem round3_nonneg (x : ℝ) (h : 0 ≤ x) : 0 ≤ round3 x := by
  unfold round3
  have h0 : (0 : ℤ) ≤ roundHalfEven (1000 * x) := by
    apply le_roundHalfEven_of_le
    push_cast
    linarith
  have h0r : (0 : ℝ) ≤ (roundHalfEven (1000 * x) : ℝ) := by exact_mod_cast h0
  apply div_nonneg h0r
  norm_num

theorem round3_le_one (x : ℝ) (h : x ≤ 1) : round3 x ≤ 1 := by
  unfold round3
  have h0 : roundHalfEven (1000 * x) ≤ (1000 : ℤ) := by
    apply roundHalfEven_le_of_le
    push_cast
    linarith
  have h0r : (roundHalfEven (1000 * x) : ℝ) ≤ 1000 := by exact_mod_cast h0
  linarith

/- Evaluation lemmas for small concrete fold-score lists. -/

theorem npMean_singleton (x : ℝ) : npMean [x] = x := by
  simp [npMean]

theorem npVar_singleton (x : ℝ) : npVar [x] = 0 := by
  simp [npVar, npMean]

theorem npStd_singleton (x : ℝ) : npStd [x] = 0 := by
  rw [npStd, npVar_singleton, Real.sqrt_zero]

theorem npMean_zeroOne : npMean [(0 : ℝ), 1] = 1 / 2 := by
  simp [npMean]

theorem npVar_zeroOne : npVar [(0 : ℝ), 1] = 1 / 4 := by
  rw [npVar, npMean_zeroOne]
  simp
  norm_num

theorem npStd_zeroOne : npStd [(0 : ℝ), 1] = 1 / 2 := by
  rw [npStd, npVar_zeroOne,
    show (1 / 4 : ℝ) = (1 / 2) ^ 2 by norm_num,
    Real.sqrt_sq (by norm_num : (0 : ℝ) ≤ 1 / 2)]

/- Statistics identities. -/

theorem sum_map_sub_sq (μ : ℝ) (s : List ℝ) :
    (s.map (fun x => (x - μ) ^ 2)).sum
      = (s.map (fun x => x ^ 2)).sum - 2 * μ * s.sum
          + (s.length : ℝ) * μ ^ 2 := by
  induction s with
  | nil => simp
  | cons a t ih =>
      simp only [List.map_cons, List.sum_cons, List.length_cons, ih]
      push_cast
      ring

theorem npVar_eq_popVar (s : List ℝ) (h : s ≠ []) :
    npVar s = (s.map (fun x => x ^ 2)).sum / (s.length : ℝ)
      - (s.sum / (s.length : ℝ)) ^ 2 := by
  have h0 : 0 < s.length := List.length_pos.mpr h
  have hn : (s.length : ℝ) ≠ 0 := by
    exact_mod_cast Nat.pos_iff_ne_zero.mp h0
  rw [npVar, npMean, sum_map_sub_sq]
  field_simp
  ring

theorem npStd_eq_specPopStd (s : List ℝ) (h : s ≠ []) :
    npStd s = specPopStd s := by
  rw [npStd, specPopStd, npVar_eq_popVar s h]

theorem npMean_nonneg (s : List ℝ) (h : ∀ x ∈ s, 0 ≤ x) : 0 ≤ npMean s := by
  apply div_nonneg (List.sum_nonneg h)
  positivity

theorem npMean_le_one (s : List ℝ) (h : ∀ x ∈ s, x ≤ 1) : npMean s ≤ 1 := by
  rcases eq_or_ne s [] with rfl | hne
  · simp [npMean]
  · have hlen : 0 < (s.length : ℝ) := by
      exact_mod_cast List.length_pos.mpr hne
    rw [npMean, div_le_one hlen]
    have hs := List.sum_le_card_nsmul s 1 h
    simpa using hs

theorem npVar_nonneg (s : List ℝ) : 0 ≤ npVar s := by
  apply div_nonneg
  · apply List.sum_nonneg
    intro x hx
    rcases List.mem_map.mp hx with ⟨y, _, rfl⟩
    positivity
  · positivity

theorem npStd_nonneg (s : List ℝ) : 0 ≤ npStd s := Real.sqrt_nonneg _

theorem two_sqrt_half : 2 * Real.sqrt (1 / 2) = Real.sqrt 2 := by
  have h2 : Real.sqrt 2 ^ 2 = 2 := Real.sq_sqrt (by norm_num)
  have heq : (1 / 2 : ℝ) = (Real.sqrt 2 / 2) ^ 2 := by
    rw [div_pow, h2]
    norm_num
  rw [heq, Real.sqrt_sq (by positivity)]
  ring

theorem round3_sqrt_two : round3 (Real.sqrt 2) = 707 / 500 := by
  have h2 : Real.sqrt 2 ^ 2 = 2 := Real.sq_sqrt (by norm_num)
  have hpos : (0 : ℝ) ≤ Real.sqrt 2 := Real.sqrt_nonneg 2
  have hlow : ((1414 : ℤ) : ℝ) - 1 / 2 < 1000 * Real.sqrt 2 := by
    push_cast
    nlinarith [h2, hpos]
  have hhigh : 1000 * Real.sqrt 2 < ((1414 : ℤ) : ℝ) + 1 / 2 := by
    push_cast
    nlinarith [h2, hpos]
  rw [round3_eq_of_bounds (Real.sqrt 2) 1414 hlow hhigh]
  norm_num

/- Structural lemmas about the embedded functions. -/

theorem score_and_time_eq (cvScore : CvOracle) (model : ModelConfig)
    (cv : ℕ) (w : World) :
    score_and_time cvScore model cv w
      = Option.map
          (fun p => (⟨round3 (npMean p.1), round3 (npStd p.1 * 2),
                      p.2.time - w.env.time⟩,
                     (⟨w.data, p.2⟩ : World)))
          (cvScore model w.data cv w.env) := by
  unfold score_and_time
  cases cvScore model w.data cv w.env with
  | none => rfl
  | some p => rfl

theorem score_and_time_some (cvScore : CvOracle) (model : ModelConfig)
    (cv : ℕ) (w : World) (r : EvalResult) (w1 : World)
    (h : score_and_time cvScore model cv w = some (r, w1)) :
    ∃ scores env1, cvScore model w.data cv w.env = some (scores, env1)
      ∧ r = ⟨round3 (npMean scores), round3 (npStd scores * 2),
             env1.time - w.env.time⟩
      ∧ w1 = ⟨w.data, env1⟩ := by
  rw [score_and_time_eq] at h
  cases ho : cvScore model w.data cv w.env with
  | none => rw [ho] at h; exact absurd h (by simp)
  | some p =>
      obtain ⟨s, e⟩ := p
      rw [ho] at h
      simp only [Option.map_some', Option.some.injEq, Prod.mk.injEq] at h
      exact ⟨s, e, rfl, h.1.symm, h.2.symm⟩


theorem score_and_time_none (cvScore : CvOracle) (model : ModelConfig)
    (cv : ℕ) (w : World) (h : cvScore model w.data cv w.env = none) :
    score_and_time cvScore model cv w = none := by
  rw [score_and_time_eq, h]
  rfl

theorem score_and_time_data (cvScore : CvOracle) (model : ModelConfig)
    (cv : ℕ) (w : World) (r : EvalResult) (w1 : World)
    (h : score_and_time cvScore model cv w = some (r, w1)) :
    w1.data = w.data := by
  rcases score_and_time_some cvScore model cv w r w1 h with ⟨s, e, _, _, hw⟩
  rw [hw]

theorem ml_benchmark_eq_runRoster (cvScore : CvOracle) (cv : ℕ) (w : World) :
    ml_benchmark cvScore cv w
      = Option.map (fun p => ((⟨rows_name, columns_name, p.1⟩ : DataFrame), p.2))
          (runRoster cvScore cv rosterConfigs w) := by
  cases h1 : score_and_time cvScore dtModel cv w with
  | none => simp [ml_benchmark, runRoster, rosterConfigs, h1]
  | some p1 =>
    obtain ⟨r1, w1⟩ := p1
    cases h2 : score_and_time cvScore rfModel cv w1 with
    | none => simp [ml_benchmark, runRoster, rosterConfigs, h1, h2]
    | some p2 =>
      obtain ⟨r2, w2⟩ := p2
      cases h3 : score_and_time cvScore adaModel cv w2 with
      | none => simp [ml_benchmark, runRoster, rosterConfigs, h1, h2, h3]
      | some p3 =>
        obtain ⟨r3, w3⟩ := p3
        cases h4 : score_and_time cvScore gbModel cv w3 with
        | none => simp [ml_benchmark, runRoster, rosterConfigs, h1, h2, h3, h4]
        | some p4 =>
          obtain ⟨r4, w4⟩ := p4
          cases h5 : score_and_time cvScore xgbModel cv w4 with
          | none => simp [ml_benchmark, runRoster, rosterConfigs, h1, h2, h3, h4, h5]
          | some p5 =>
            obtain ⟨r5, w5⟩ := p5
            simp [ml_benchmark, runRoster, rosterConfigs, h1, h2, h3, h4, h5]

theorem runRoster_nil (cvScore : CvOracle) (cv : ℕ) (w : World) :
    runRoster cvScore cv [] w = some ([], w) := rfl

theorem runRoster_cons (cvScore : CvOracle) (cv : ℕ) (m : ModelConfig)
    (ms : List ModelConfig) (w : World) :
    runRoster cvScore cv (m :: ms) w
      = (score_and_time cvScore m cv w).bind (fun p =>
          (runRoster cvScore cv ms p.2).map (fun q => (p.1 :: q.1, q.2))) := by
  cases h1 : score_and_time cvScore m cv w with
  | none => simp [runRoster, h1]
  | some p =>
      obtain ⟨r, w2⟩ := p
      cases h2 : runRoster cvScore cv ms w2 with
      | none => simp [runRoster, h1, h2]
      | some q =>
          obtain ⟨rs, w3⟩ := q
          simp [runRoster, h1, h2]

theorem runRoster_cons_some (cvScore : CvOracle) (cv : ℕ) (m : ModelConfig)
    (ms : List ModelConfig) (w : World) (rs : List EvalResult) (w1 : World)
    (h : runRoster cvScore cv (m :: ms) w = some (rs, w1)) :
    ∃ r w2 rs2, score_and_time cvScore m cv w = some (r, w2)
      ∧ runRoster cvScore cv ms w2 = some (rs2, w1) ∧ rs = r :: rs2 := by
  rw [runRoster_cons] at h
  cases h1 : score_and_time cvScore m cv w with
  | none => rw [h1] at h; exact absurd h (by simp)
  | some p =>
      obtain ⟨r, w2⟩ := p
      rw [h1] at h
      simp only [Option.some_bind] at h
      cases h2 : runRoster cvScore cv ms w2 with
      | none => rw [h2] at h; exact absurd h (by simp)
      | some q =>
          obtain ⟨rs2, w3⟩ := q
          rw [h2] at h
          simp only [Option.map_some', Option.some.injEq, Prod.mk.injEq] at h
          exact ⟨r, w2, rs2, rfl, by rw [h2, h.2], h.1.symm⟩

theorem runRoster_cons_fail (cvScore : CvOracle) (cv : ℕ) (m : ModelConfig)
    (ms : List ModelConfig) (w : World)
    (h : score_and_time cvScore m cv w = none) :
    runRoster cvScore cv (m :: ms) w = none := by
  rw [runRoster, h]

theorem runRoster_data (cvScore : CvOracle) (cv : ℕ) :
    ∀ (ms : List ModelConfig) (w : World) (rs : List EvalResult) (w1 : World),
      runRoster cvScore cv ms w = some (rs, w1) → w1.data = w.data := by
  intro ms
  induction ms with
  | nil =>
      intro w rs w1 h
      rw [runRoster_nil] at h
      simp only [Option.some.injEq, Prod.mk.injEq] at h
      rw [← h.2]
  | cons m ms ih =>
      intro w rs w1 h
      rcases runRoster_cons_some cvScore cv m ms w rs w1 h with
        ⟨r, w2, rs2, h1, h2, _⟩
      rw [ih w2 rs2 w1 h2, score_and_time_data cvScore m cv w r w2 h1]

/- Determinism of the mean/spread cells when the external library's scores
do not depend on the ambient environment. -/

theorem score_and_time_rngFree (cvScore : CvOracle)
    (hdet : ∀ model data k e1 e2,
      Option.map Prod.fst (cvScore model data k e1)
        = Option.map Prod.fst (cvScore model data k e2))
    (model : ModelConfig) (cv : ℕ) (w w' : World) (hdata : w.data = w'.data) :
    Option.map (fun p => (p.1.meanScore, p.1.scoreSpread, p.2.data))
        (score_and_time cvScore model cv w)
      = Option.map (fun p => (p.1.meanScore, p.1.scoreSpread, p.2.data))
        (score_and_time cvScore model cv w') := by
  rw [score_and_time_eq, score_and_time_eq, hdata]
  have h := hdet model w'.data cv w.env w'.env
  cases ho1 : cvScore model w'.data cv w.env with
  | none =>
      rw [ho1] at h
      cases ho2 : cvScore model w'.data cv w'.env with
      | none => rfl
      | some p => rw [ho2] at h; exact absurd h (by simp)
  | some p =>
      rw [ho1] at h
      cases ho2 : cvScore model w'.data cv w'.env with
      | none => rw [ho2] at h; exact absurd h (by simp)
      | some q =>
          rw [ho2] at h
          simp only [Option.map_some', Option.some.injEq] at h
          simp [h]

theorem runRoster_rngFree (cvScore : CvOracle)
    (hdet : ∀ model data k e1 e2,
      Option.map Prod.fst (cvScore model data k e1)
        = Option.map Prod.fst (cvScore model data k e2))
    (cv : ℕ) :
    ∀ (ms : List ModelConfig) (w w' : World), w.data = w'.data →
      Option.map (fun p => (p.1.map (fun r => (r.meanScore, r.scoreSpread)), p.2.data))
          (runRoster cvScore cv ms w)
        = Option.map (fun p => (p.1.map (fun r => (r.meanScore, r.scoreSpread)), p.2.data))
          (runRoster cvScore cv ms w') := by
  intro ms
  induction ms with
  | nil => intro w w' hdata; simp [runRoster_nil, hdata]
  | cons m ms ih =>
      intro w w' hdata
      have hst := score_and_time_rngFree cvScore hdet m cv w w' hdata
      rw [runRoster_cons, runRoster_cons]
      cases ho1 : score_and_time cvScore m cv w with
      | none =>
          rw [ho1] at hst
          cases ho2 : score_and_time cvScore m cv w' with
          | none => rfl
          | some q => rw [ho2] at hst; exact absurd hst (by simp)
      | some p =>
          rw [ho1] at hst
          cases ho2 : score_and_time cvScore m cv w' with
          | none => rw [ho2] at hst; exact absurd hst (by simp)
          | some q =>
              rw [ho2] at hst
              simp only [Option.map_some', Option.some.injEq, Prod.mk.injEq] at hst
              obtain ⟨hm, hs, hd⟩ := hst
              have ih2 := ih p.2 q.2 hd
              simp only [Option.some_bind]
              cases hr1 : runRoster cvScore cv ms p.2 with
              | none =>
                  rw [hr1] at ih2
                  cases hr2 : runRoster cvScore cv ms q.2 with
                  | none => rfl
                  | some u => rw [hr2] at ih2; exact absurd ih2 (by simp)
              | some t =>
                  rw [hr1] at ih2
                  cases hr2 : runRoster cvScore cv ms q.2 with
                  | none => rw [hr2] at ih2; exact absurd ih2 (by simp)
                  | some u =>
                      rw [hr2] at ih2
                      simp only [Option.map_some', Option.some.injEq,
                        Prod.mk.injEq] at ih2
                      obtain ⟨hmap, hdat⟩ := ih2
                      simp [hm, hs, hmap, hdat]

/- Full description of a successful benchmark run. -/

theorem ml_benchmark_some (cvScore : CvOracle) (cv : ℕ) (w : World)
    (df : DataFrame) (wEnd : World)
    (h : ml_benchmark cvScore cv w = some (df, wEnd)) :
    df.index = rows_name ∧ df.columns = columns_name ∧
    ∃ s1 d1 s2 d2 s3 d3 s4 d4 s5 d5,
      df.data = [⟨round3 (npMean s1), round3 (npStd s1 * 2), d1⟩,
                 ⟨round3 (npMean s2), round3 (npStd s2 * 2), d2⟩,
                 ⟨round3 (npMean s3), round3 (npStd s3 * 2), d3⟩,
                 ⟨round3 (npMean s4), round3 (npStd s4 * 2), d4⟩,
                 ⟨round3 (npMean s5), round3 (npStd s5 * 2), d5⟩] := by
  rw [ml_benchmark_eq_runRoster] at h
  cases hr : runRoster cvScore cv rosterConfigs w with
  | none => rw [hr] at h; exact absurd h (by simp)
  | some t =>
      rw [hr] at h
      simp only [Option.map_some', Option.some.injEq, Prod.mk.injEq] at h
      obtain ⟨hdf, _⟩ := h
      rw [show rosterConfigs
            = dtModel :: rfModel :: adaModel :: gbModel :: xgbModel :: []
          from rfl] at hr
      obtain ⟨t1, t2⟩ := t
      obtain ⟨r1, u1, rs1, hc1, hr1, he1⟩ :=
        runRoster_cons_some cvScore cv _ _ _ _ _ hr
      obtain ⟨r2, u2, rs2, hc2, hr2, he2⟩ :=
        runRoster_cons_some cvScore cv _ _ _ _ _ hr1
      obtain ⟨r3, u3, rs3, hc3, hr3, he3⟩ :=
        runRoster_cons_some cvScore cv _ _ _ _ _ hr2
      obtain ⟨r4, u4, rs4, hc4, hr4, he4⟩ :=
        runRoster_cons_some cvScore cv _ _ _ _ _ hr3
      obtain ⟨r5, u5, rs5, hc5, hr5, he5⟩ :=
        runRoster_cons_some cvScore cv _ _ _ _ _ hr4
      rw [runRoster_nil] at hr5
      simp only [Option.some.injEq, Prod.mk.injEq] at hr5
      obtain ⟨s1, e1, _, hv1, _⟩ := score_and_time_some cvScore _ cv _ _ _ hc1
      obtain ⟨s2, e2, _, hv2, _⟩ := score_and_time_some cvScore _ cv _ _ _ hc2
      obtain ⟨s3, e3, _, hv3, _⟩ := score_and_time_some cvScore _ cv _ _ _ hc3
      obtain ⟨s4, e4, _, hv4, _⟩ := score_and_time_some cvScore _ cv _ _ _ hc4
      obtain ⟨s5, e5, _, hv5, _⟩ := score_and_time_some cvScore _ cv _ _ _ hc5
      refine ⟨by rw [← hdf], by rw [← hdf],
        s1, e1.time - w.env.time, s2, e2.time - u1.env.time,
        s3, e3.time - u2.env.time, s4, e4.time - u3.env.time,
        s5, e5.time - u4.env.time, ?_⟩
      rw [← hdf]
      simp only [he1, he2, he3, he4, he5, ← hr5.1, hv1, hv2, hv3, hv4, hv5]

/- Cell-indexing lemmas for the aggregation claims. -/

theorem getD_zipWith_addRow (a : List EvalResult) :
    ∀ (b : List EvalResult) (i : ℕ), i < a.length → i < b.length →
      (List.zipWith addRow a b).getD i row0
        = addRow (a.getD i row0) (b.getD i row0) := by
  induction a with
  | nil => intro b i h _; exact absurd h (by simp)
  | cons x xs ih =>
      intro b i h1 h2
      cases b with
      | nil => exact absurd h2 (by simp)
      | cons y ys =>
          cases i with
          | zero => rfl
          | succ j =>
              simp only [List.zipWith_cons_cons, List.getD_cons_succ]
              exact ih ys j (by simpa using h1) (by simpa using h2)

theorem getD_map_div (k : ℝ) (l : List EvalResult) :
    ∀ i : ℕ, i < l.length →
      ((l.map (fun r =>
          (⟨r.meanScore / k, r.scoreSpread / k, r.duration / k⟩ : EvalResult))).getD i row0)
        = ⟨(l.getD i row0).meanScore / k, (l.getD i row0).scoreSpread / k,
           (l.getD i row0).duration / k⟩ := by
  induction l with
  | nil => intro i hi; exact absurd hi (by simp)
  | cons x xs ih =>
      intro i hi
      cases i with
      | zero => rfl
      | succ j =>
          simp only [List.map_cons, List.getD_cons_succ]
          exact ih j (by simpa using hi)

theorem dfDivide_cell (a : DataFrame) (k : ℝ) (i : ℕ) (hi : i < a.data.length) :
    (dfDivide a k).data.getD i row0
      = ⟨(a.data.getD i row0).meanScore / k, (a.data.getD i row0).scoreSpread / k,
         (a.data.getD i row0).duration / k⟩ := by
  simp only [dfDivide]
  exact getD_map_div k a.data i hi

theorem foldl_dfAdd_length (ds : List DataFrame) :
    ∀ d : DataFrame, d.data.length = 5 → (∀ t ∈ ds, t.data.length = 5) →
      (ds.foldl dfAdd d).data.length = 5 := by
  induction ds with
  | nil => intro d hd _; simpa using hd
  | cons t ts ih =>
      intro d hd h
      simp only [List.foldl_cons]
      apply ih
      · have ht : t.data.length = 5 := h t (by simp)
        simp [dfAdd, hd, ht]
      · intro u hu
        exact h u (by simp [hu])

theorem foldl_dfAdd_cell (proj : EvalResult → ℝ)
    (hproj : ∀ a b, proj (addRow a b) = proj a + proj b)
    (ds : List DataFrame) :
    ∀ (d : DataFrame) (i : ℕ), i < 5 → d.data.length = 5 →
      (∀ t ∈ ds, t.data.length = 5) →
      proj ((ds.foldl dfAdd d).data.getD i row0)
        = proj (d.data.getD i row0)
            + (ds.map (fun t => proj (t.data.getD i row0))).sum := by
  induction ds with
  | nil => intro d i hi hd h; simp
  | cons t ts ih =>
      intro d i hi hd h
      have ht : t.data.length = 5 := h t (by simp)
      have hdt : (dfAdd d t).data.length = 5 := by
        simp [dfAdd, hd, ht]
      simp only [List.foldl_cons, List.map_cons, List.sum_cons]
      rw [ih (dfAdd d t) i hi hdt (fun u hu => h u (by simp [hu]))]
      rw [show (dfAdd d t).data = List.zipWith addRow d.data t.data from rfl]
      rw [getD_zipWith_addRow d.data t.data i (by omega) (by omega)]
      rw [hproj]
      ring

theorem foldl_dfAdd_index (ds : List DataFrame) :
    ∀ d : DataFrame, (ds.foldl dfAdd d).index = d.index := by
  induction ds with
  | nil => intro d; rfl
  | cons t ts ih =>
      intro d
      simp only [List.foldl_cons]
      rw [ih (dfAdd d t)]
      rfl

/- Concrete evaluations of whole benchmark runs, used by the witnesses. -/

theorem score_and_time_oneOracle (model : ModelConfig) (cv : ℕ) (w : World) :
    score_and_time oneOracle model cv w = some (⟨1, 0, 0⟩, w) := by
  rw [score_and_time_eq]
  simp [oneOracle, npMean_singleton, npStd_singleton, round3_one, round3_zero]

theorem ml_benchmark_oneOracle (cv : ℕ) (w : World) :
    ml_benchmark oneOracle cv w = some (oneDf, w) := by
  simp [ml_benchmark, score_and_time_oneOracle, oneDf, List.replicate]

theorem score_and_time_halfOracle (model : ModelConfig) (cv : ℕ) (w : World) :
    score_and_time halfOracle model cv w
      = some (⟨1 / 2, 0, 1⟩, ⟨w.data, ⟨w.env.time + 1, w.env.rng⟩⟩) := by
  rw [score_and_time_eq]
  simp [halfOracle, npMean_singleton, npStd_singleton, round3_zero]
  rw [show (2⁻¹ : ℝ) = 1 / 2 by norm_num]
  exact round3_half

theorem score_and_time_zeroOneOracle (model : ModelConfig) (cv : ℕ) (w : World) :
    score_and_time zeroOneOracle model cv w = some (⟨1 / 2, 1, 0⟩, w) := by
  rw [score_and_time_eq]
  have hm : round3 (npMean [(0 : ℝ), 1]) = 1 / 2 := by
    rw [npMean_zeroOne, round3_half]
  have hs : round3 (npStd [(0 : ℝ), 1] * 2) = 1 := by
    rw [npStd_zeroOne, show (1 / 2 * 2 : ℝ) = 1 by norm_num, round3_one]
  simp [zeroOneOracle, hm, hs]

theorem score_and_time_seedOracle (model : ModelConfig) (cv : ℕ) (w : World) :
    score_and_time seedSensitiveOracle model cv w
      = some (⟨round3 (if model.random_state = none
                       then ((min w.env.rng 1 : ℕ) : ℝ) else 0), 0, 0⟩, w) := by
  rw [score_and_time_eq]
  by_cases hm : model.random_state = none
  · simp [seedSensitiveOracle, hm, npMean_singleton, npStd_singleton, round3_zero]
  · simp [seedSensitiveOracle, hm, npMean_singleton, npStd_singleton, round3_zero]

theorem ml_benchmark_seed_w0 :
    ml_benchmark seedSensitiveOracle 10 demoWorld
      = some (⟨rows_name, columns_name,
               [⟨0, 0, 0⟩, ⟨0, 0, 0⟩, ⟨0, 0, 0⟩, ⟨0, 0, 0⟩, ⟨0, 0, 0⟩]⟩,
              demoWorld) := by
  simp [ml_benchmark, score_and_time_seedOracle, dtModel, rfModel, adaModel,
    gbModel, xgbModel, demoWorld, round3_zero]

theorem ml_benchmark_seed_w1 :
    ml_benchmark seedSensitiveOracle 10 demoWorld1
      = some (⟨rows_name, columns_name,
               [⟨0, 0, 0⟩, ⟨0, 0, 0⟩, ⟨0, 0, 0⟩, ⟨1, 0, 0⟩, ⟨0, 0, 0⟩]⟩,
              demoWorld1) := by
  simp [ml_benchmark, score_and_time_seedOracle, dtModel, rfModel, adaModel,
    gbModel, xgbModel, demoWorld1, round3_zero, round3_one]

/- Remaining helper lemmas. -/

theorem specSampleStd_zeroOne : specSampleStd [(0 : ℝ), 1] = Real.sqrt (1 / 2) := by
  unfold specSampleStd
  congr 1
  simp
  norm_num

theorem runRoster_append_none (cvScore : CvOracle) (cv : ℕ) :
    ∀ (ms1 : List ModelConfig) (w : World) (rs : List EvalResult) (w1 : World)
      (m : ModelConfig) (ms2 : List ModelConfig),
      runRoster cvScore cv ms1 w = some (rs, w1) →
      score_and_time cvScore m cv w1 = none →
      runRoster cvScore cv (ms1 ++ m :: ms2) w = none := by
  intro ms1
  induction ms1 with
  | nil =>
      intro w rs w1 m ms2 hpre hfail
      rw [runRoster_nil] at hpre
      simp only [Option.some.injEq, Prod.mk.injEq] at hpre
      rw [List.nil_append]
      exact runRoster_cons_fail cvScore cv m ms2 w (by rw [hpre.2]; exact hfail)
  | cons m0 ms ih =>
      intro w rs w1 m ms2 hpre hfail
      obtain ⟨r, w2, rs2, hc, hrest, _⟩ :=
        runRoster_cons_some cvScore cv m0 ms w rs w1 hpre
      rw [List.cons_append, runRoster_cons, hc]
      simp only [Option.some_bind]
      rw [ih w2 rs2 w1 m ms2 hrest hfail]
      rfl

theorem rosterCalls_eq_of_some (cvScore : CvOracle) (cv : ℕ) :
    ∀ (ms : List ModelConfig) (w : World) (rs : List EvalResult) (w1 : World),
      runRoster cvScore cv ms w = some (rs, w1) →
      rosterCalls cvScore cv ms w = ms.map (fun m => (m, w.data, cv)) := by
  intro ms
  induction ms with
  | nil => intro w rs w1 _; rfl
  | cons m ms ih =>
      intro w rs w1 h
      obtain ⟨r, w2, rs2, hc, hrest, _⟩ :=
        runRoster_cons_some cvScore cv m ms w rs w1 h
      have hd : w2.data = w.data := score_and_time_data cvScore m cv w r w2 hc
      simp only [rosterCalls, hc, List.map_cons]
      rw [ih w2 rs2 w1 hrest]
      simp only [hd]

/- Claims. -/

/-- Claim C1 (counterexample): the claim says `score_spread` equals two times
the sample (Bessel-corrected) standard deviation of the fold scores rounded
to 3 digits; on fold scores `[0, 1]` the code returns spread `1` =
`round(2 * population std, 3)`, while two times the sample standard
deviation rounded to 3 digits is `1.414`, so the claim as stated is false. -/
theorem c1_spread_counterexample :
    score_and_time zeroOneOracle dtModel 2 demoWorld
        = some (⟨1 / 2, 1, 0⟩, demoWorld)
      ∧ round3 (2 * specSampleStd [(0 : ℝ), 1]) = 707 / 500
      ∧ (1 : ℝ) ≠ 707 / 500 := by
  refine ⟨score_and_time_zeroOneOracle dtModel 2 demoWorld, ?_, by norm_num⟩
  rw [specSampleStd_zeroOne, two_sqrt_half, round3_sqrt_two]

/-- Claim C1 (amended): for every invocation of `score_and_time` on fold
scores returned by the external cross-validator, the returned `score_spread`
equals two times the population (`ddof=0`, divide-by-n) standard deviation
of the fold scores, rounded to 3 decimal digits. -/
theorem c1_spread_amended (cvScore : CvOracle) (model : ModelConfig) (cv : ℕ)
    (w : World) (s : List ℝ) (env1 : EnvState)
    (h : cvScore model w.data cv w.env = some (s, env1)) (hs : s ≠ []) :
    ∃ r w1, score_and_time cvScore model cv w = some (r, w1)
      ∧ r.scoreSpread = round3 (2 * specPopStd s) := by
  refine ⟨⟨round3 (npMean s), round3 (npStd s * 2), env1.time - w.env.time⟩,
    ⟨w.data, env1⟩, ?_, ?_⟩
  · rw [score_and_time_eq, h]
    rfl
  · show round3 (npStd s * 2) = round3 (2 * specPopStd s)
    rw [npStd_eq_specPopStd s hs, mul_comm]

/-- Witness for C1 (amended) at fold scores `[0, 1]`. -/
theorem c1_spread_amended_witness :
    zeroOneOracle dtModel demoWorld.data 2 demoWorld.env
        = some ([(0 : ℝ), 1], demoWorld.env)
      ∧ ([(0 : ℝ), 1] ≠ ([] : List ℝ))
      ∧ ∃ r w1, score_and_time zeroOneOracle dtModel 2 demoWorld = some (r, w1)
          ∧ r.scoreSpread = round3 (2 * specPopStd [(0 : ℝ), 1]) :=
  ⟨rfl, by simp,
   c1_spread_amended zeroOneOracle dtModel 2 demoWorld [(0 : ℝ), 1]
     demoWorld.env rfl (by simp)⟩

/-- Claim C2 (counterexample): the claim says two invocations of
`ml_benchmark` on the same dataset produce identical mean/spread cells
because each roster entry is instantiated with a fixed random seed wherever
the algorithm is stochastic; in fact the `GradientBoostingClassifier` entry
is instantiated with no `random_state`, and under an external behavior that
is deterministic for every seeded configuration the two invocations (same
dataset, different ambient RNG states) disagree on that row's mean cell. -/
theorem c2_determinism_counterexample :
    gbModel.random_state = none
      ∧ rosterConfigs.getD 3 dtModel = gbModel
      ∧ demoWorld.data = demoWorld1.data
      ∧ Option.map (fun p => p.1.data.map (fun r => (r.meanScore, r.scoreSpread)))
            (ml_benchmark seedSensitiveOracle 10 demoWorld)
          ≠ Option.map (fun p => p.1.data.map (fun r => (r.meanScore, r.scoreSpread)))
            (ml_benchmark seedSensitiveOracle 10 demoWorld1) := by
  refine ⟨rfl, rfl, rfl, ?_⟩
  rw [ml_benchmark_seed_w0, ml_benchmark_seed_w1]
  intro hcontra
  simp only [Option.map_some', Option.some.injEq, List.map_cons, List.map_nil,
    List.cons.injEq, Prod.mk.injEq] at hcontra
  have : (0 : ℝ) = 1 := hcontra.2.2.2.1.1
  norm_num at this

/-- Claim C2 (amended): four of the five roster entries carry the fixed seed
`random_state=0`, but the `GradientBoostingClassifier` entry carries no
seed; whenever the external cross-validator's fold scores depend only on the
model configuration, dataset and fold count (not on the ambient RNG state),
two invocations of `ml_benchmark` on the same dataset produce identical
row labels and identical mean/spread cells in every row (the durations may
differ). -/
theorem c2_determinism_amended (cvScore : CvOracle)
    (hdet : ∀ model data k e1 e2,
      Option.map Prod.fst (cvScore model data k e1)
        = Option.map Prod.fst (cvScore model data k e2))
    (cv : ℕ) (w w' : World) (hdata : w.data = w'.data) :
    Option.map (fun p => (p.1.index, p.1.data.map (fun r => (r.meanScore, r.scoreSpread))))
        (ml_benchmark cvScore cv w)
      = Option.map (fun p => (p.1.index, p.1.data.map (fun r => (r.meanScore, r.scoreSpread))))
        (ml_benchmark cvScore cv w') := by
  have h := runRoster_rngFree cvScore hdet cv rosterConfigs w w' hdata
  rw [ml_benchmark_eq_runRoster, ml_benchmark_eq_runRoster]
  cases hr1 : runRoster cvScore cv rosterConfigs w with
  | none =>
      rw [hr1] at h
      cases hr2 : runRoster cvScore cv rosterConfigs w' with
      | none => rfl
      | some u => rw [hr2] at h; exact absurd h (by simp)
  | some t =>
      rw [hr1] at h
      cases hr2 : runRoster cvScore cv rosterConfigs w' with
      | none => rw [hr2] at h; exact absurd h (by simp)
      | some u =>
          rw [hr2] at h
          simp only [Option.map_some', Option.some.injEq, Prod.mk.injEq] at h
          simp [h.1]

/-- Witness for C2 (amended): a constant external behavior, two worlds with
the same dataset but different ambient RNG states. -/
theorem c2_determinism_amended_witness :
    Option.map (fun p => (p.1.index, p.1.data.map (fun r => (r.meanScore, r.scoreSpread))))
        (ml_benchmark oneOracle 10 demoWorld)
      = Option.map (fun p => (p.1.index, p.1.data.map (fun r => (r.meanScore, r.scoreSpread))))
        (ml_benchmark oneOracle 10 demoWorld1) :=
  c2_determinism_amended oneOracle (fun _ _ _ _ _ => rfl) 10 demoWorld demoWorld1 rfl

/-- Claim C3: for every dataset, fold count and external behavior for which
all five evaluations succeed, `ml_benchmark` returns a table with exactly
five rows keyed by the five fixed classifier names and exactly three named
columns, independent of the dataset. -/
theorem c3_fixed_table_shape (cvScore : CvOracle) (cv : ℕ) (w : World)
    (df : DataFrame) (wEnd : World)
    (h : ml_benchmark cvScore cv w = some (df, wEnd)) :
    df.index = ["DecisionTreeClassifier", "RandomForestClassifier",
                "AdaBoostClassifier", "GradientBoostingClassifier", "XGBoost"]
      ∧ df.columns = ["Approx. mean of scores", "Approx. variance of scores",
                      "Processing time"]
      ∧ df.index.length = 5 ∧ df.columns.length = 3 ∧ df.data.length = 5 := by
  obtain ⟨hidx, hcol, s1, d1, s2, d2, s3, d3, s4, d4, s5, d5, hdata⟩ :=
    ml_benchmark_some cvScore cv w df wEnd h
  exact ⟨hidx.trans rfl, hcol.trans rfl, by simp [hidx, rows_name],
    by simp [hcol, columns_name], by simp [hdata]⟩

/-- Witness for C3 on a successful run under a concrete external behavior. -/
theorem c3_fixed_table_shape_witness :
    oneDf.index = ["DecisionTreeClassifier", "RandomForestClassifier",
                   "AdaBoostClassifier", "GradientBoostingClassifier", "XGBoost"]
      ∧ oneDf.columns = ["Approx. mean of scores", "Approx. variance of scores",
                         "Processing time"]
      ∧ oneDf.index.length = 5 ∧ oneDf.columns.length = 3
      ∧ oneDf.data.length = 5 :=
  c3_fixed_table_shape oneOracle 10 demoWorld oneDf demoWorld
    (ml_benchmark_oneOracle 10 demoWorld)

/-- Claim C4: for every invocation of `score_and_time` on fold scores
returned by the external cross-validator, the returned `mean_score` is the
arithmetic mean of the fold scores rounded to 3 decimal digits, and the
returned `duration` is the end timestamp minus the start timestamp taken
around the cross-validation call. -/
theorem c4_mean_and_duration (cvScore : CvOracle) (model : ModelConfig)
    (cv : ℕ) (w : World) (s : List ℝ) (env1 : EnvState)
    (h : cvScore model w.data cv w.env = some (s, env1)) :
    ∃ r w1, score_and_time cvScore model cv w = some (r, w1)
      ∧ r.meanScore = round3 (s.sum / (s.length : ℝ))
      ∧ r.duration = env1.time - w.env.time := by
  refine ⟨⟨round3 (npMean s), round3 (npStd s * 2), env1.time - w.env.time⟩,
    ⟨w.data, env1⟩, ?_, rfl, rfl⟩
  rw [score_and_time_eq, h]
  rfl

/-- Witness for C4 at fold scores `[0, 1]`. -/
theorem c4_mean_and_duration_witness :
    zeroOneOracle rfModel demoWorld.data 2 demoWorld.env
        = some ([(0 : ℝ), 1], demoWorld.env)
      ∧ ∃ r w1, score_and_time zeroOneOracle rfModel 2 demoWorld = some (r, w1)
          ∧ r.meanScore = round3 (([(0 : ℝ), 1]).sum / ((([(0 : ℝ), 1]) : List ℝ).length : ℝ))
          ∧ r.duration = demoWorld.env.time - demoWorld.env.time :=
  ⟨rfl, c4_mean_and_duration zeroOneOracle rfModel 2 demoWorld [(0 : ℝ), 1]
    demoWorld.env rfl⟩

/-- Claim C5: when the external cross-validator succeeds with every fold
score in `[0, 1]` and the monotone process clock has not gone backwards,
the triple returned by `score_and_time` has `mean_score` in `[0, 1]`,
non-negative `score_spread` and non-negative `duration`. -/
theorem c5_result_bounds (cvScore : CvOracle) (model : ModelConfig) (cv : ℕ)
    (w : World) (s : List ℝ) (env1 : EnvState)
    (h : cvScore model w.data cv w.env = some (s, env1))
    (hs : ∀ x ∈ s, 0 ≤ x ∧ x ≤ 1)
    (hclock : w.env.time ≤ env1.time) :
    ∃ r w1, score_and_time cvScore model cv w = some (r, w1)
      ∧ 0 ≤ r.meanScore ∧ r.meanScore ≤ 1
      ∧ 0 ≤ r.scoreSpread ∧ 0 ≤ r.duration := by
  refine ⟨⟨round3 (npMean s), round3 (npStd s * 2), env1.time - w.env.time⟩,
    ⟨w.data, env1⟩, ?_, ?_, ?_, ?_, ?_⟩
  · rw [score_and_time_eq, h]
    rfl
  · exact round3_nonneg _ (npMean_nonneg s (fun x hx => (hs x hx).1))
  · exact round3_le_one _ (npMean_le_one s (fun x hx => (hs x hx).2))
  · apply round3_nonneg
    have hstd := npStd_nonneg s
    linarith
  · show (0 : ℝ) ≤ env1.time - w.env.time
    linarith

/-- Witness for C5 under an external behavior that returns the fold score
`1/2` and advances the clock by one second. -/
theorem c5_result_bounds_witness :
    halfOracle adaModel demoWorld.data 2 demoWorld.env
        = some ([(1 / 2 : ℝ)], ⟨demoWorld.env.time + 1, demoWorld.env.rng⟩)
      ∧ (∀ x ∈ [(1 / 2 : ℝ)], 0 ≤ x ∧ x ≤ 1)
      ∧ demoWorld.env.time ≤ demoWorld.env.time + 1
      ∧ ∃ r w1, score_and_time halfOracle adaModel 2 demoWorld = some (r, w1)
          ∧ 0 ≤ r.meanScore ∧ r.meanScore ≤ 1
          ∧ 0 ≤ r.scoreSpread ∧ 0 ≤ r.duration :=
  ⟨rfl, by norm_num, by norm_num,
   c5_result_bounds halfOracle adaModel 2 demoWorld [(1 / 2 : ℝ)]
     ⟨demoWorld.env.time + 1, demoWorld.env.rng⟩ rfl (by norm_num) (by norm_num)⟩

/-- Claim C6: an exception of the external library propagates uncaught
through `score_and_time` (which returns exactly the failure, with no retry
or translation), and if the evaluation of any roster entry fails then
`ml_benchmark` fails as a whole and no partial table is returned. -/
theorem c6_error_propagation (cvScore : CvOracle) (cv : ℕ) :
    (∀ model (w : World), cvScore model w.data cv w.env = none →
        score_and_time cvScore model cv w = none)
      ∧ (∀ (ms1 : List ModelConfig) (m : ModelConfig) (ms2 : List ModelConfig)
          (w : World) (rs : List EvalResult) (w1 : World),
          rosterConfigs = ms1 ++ m :: ms2 →
          runRoster cvScore cv ms1 w = some (rs, w1) →
          score_and_time cvScore m cv w1 = none →
          ml_benchmark cvScore cv w = none) := by
  constructor
  · intro model w h
    exact score_and_time_none cvScore model cv w h
  · intro ms1 m ms2 w rs w1 hroster hpre hfail
    rw [ml_benchmark_eq_runRoster, hroster,
      runRoster_append_none cvScore cv ms1 w rs w1 m ms2 hpre hfail]
    rfl

/-- Witness for C6: an always-raising external behavior aborts both the
single evaluation and the whole benchmark run. -/
theorem c6_error_propagation_witness :
    score_and_time failOracle dtModel 10 demoWorld = none
      ∧ ml_benchmark failOracle 10 demoWorld = none :=
  ⟨(c6_error_propagation failOracle 10).1 dtModel demoWorld rfl,
   (c6_error_propagation failOracle 10).2 [] dtModel
     [rfModel, adaModel, gbModel, xgbModel] demoWorld [] demoWorld rfl rfl rfl⟩

/-- Claim C7: for every collection of benchmark tables with the identical
five-row roster, summing the tables cell-wise and dividing by the table
count yields a table whose every cell is the arithmetic mean of the
corresponding cells of the inputs. -/
theorem c7_table_average (d : DataFrame) (ds : List DataFrame)
    (hlen : ∀ t ∈ d :: ds, t.data.length = 5)
    (_hidx : ∀ t ∈ d :: ds, t.index = rows_name)
    (i : ℕ) (hi : i < 5) :
    ((dfDivide (ds.foldl dfAdd d) (((d :: ds).length : ℕ) : ℝ)).data.getD i row0).meanScore
        = ((d :: ds).map (fun t => (t.data.getD i row0).meanScore)).sum
            / (((d :: ds).length : ℕ) : ℝ)
      ∧ ((dfDivide (ds.foldl dfAdd d) (((d :: ds).length : ℕ) : ℝ)).data.getD i row0).scoreSpread
        = ((d :: ds).map (fun t => (t.data.getD i row0).scoreSpread)).sum
            / (((d :: ds).length : ℕ) : ℝ)
      ∧ ((dfDivide (ds.foldl dfAdd d) (((d :: ds).length : ℕ) : ℝ)).data.getD i row0).duration
        = ((d :: ds).map (fun t => (t.data.getD i row0).duration)).sum
            / (((d :: ds).length : ℕ) : ℝ) := by
  have hd5 : d.data.length = 5 := hlen d (by simp)
  have hds : ∀ t ∈ ds, t.data.length = 5 := fun t ht => hlen t (by simp [ht])
  have hflen : (ds.foldl dfAdd d).data.length = 5 :=
    foldl_dfAdd_length ds d hd5 hds
  rw [dfDivide_cell (ds.foldl dfAdd d) (((d :: ds).length : ℕ) : ℝ) i (by omega)]
  have hmean := foldl_dfAdd_cell EvalResult.meanScore (fun a b => rfl)
    ds d i hi hd5 hds
  have hspread := foldl_dfAdd_cell EvalResult.scoreSpread (fun a b => rfl)
    ds d i hi hd5 hds
  have hdur := foldl_dfAdd_cell EvalResult.duration (fun a b => rfl)
    ds d i hi hd5 hds
  refine ⟨?_, ?_, ?_⟩
  · show EvalResult.meanScore ((ds.foldl dfAdd d).data.getD i row0) / _ = _
    rw [hmean]
    simp only [List.map_cons, List.sum_cons]
  · show EvalResult.scoreSpread ((ds.foldl dfAdd d).data.getD i row0) / _ = _
    rw [hspread]
    simp only [List.map_cons, List.sum_cons]
  · show EvalResult.duration ((ds.foldl dfAdd d).data.getD i row0) / _ = _
    rw [hdur]
    simp only [List.map_cons, List.sum_cons]

/-- Witness for C7: two tables whose first mean cells read `0.90` and
`0.96` average to `0.93` in that cell. -/
theorem c7_table_average_witness :
    ((dfDivide (List.foldl dfAdd demoDf1 [demoDf2])
        (((demoDf1 :: [demoDf2]).length : ℕ) : ℝ)).data.getD 0 row0).meanScore
      = 93 / 100 := by
  have h := (c7_table_average demoDf1 [demoDf2]
    (by intro t ht
        simp only [List.mem_cons] at ht
        rcases ht with rfl | rfl | h3
        · simp [demoDf1]
        · simp [demoDf2]
        · simp at h3)
    (by intro t ht
        simp only [List.mem_cons] at ht
        rcases ht with rfl | rfl | h3
        · rfl
        · rfl
        · simp at h3)
    0 (by norm_num)).1
  rw [h]
  simp [demoDf1, demoDf2, List.replicate]
  norm_num

/-- Claim C8: `ml_benchmark` is the strictly sequential run of
`score_and_time` over the fixed five-entry roster: the evaluations are
chained one after another (each starting in the world left by the previous
one), the roster has exactly five entries, and on a successful run each
entry is passed the same features, labels and fold count, in roster order. -/
theorem c8_sequential_roster (cvScore : CvOracle) (cv : ℕ) (w : World) :
    ml_benchmark cvScore cv w
        = Option.map (fun p => ((⟨rows_name, columns_name, p.1⟩ : DataFrame), p.2))
            (runRoster cvScore cv rosterConfigs w)
      ∧ rosterConfigs.length = 5
      ∧ (∀ df wEnd, ml_benchmark cvScore cv w = some (df, wEnd) →
          rosterCalls cvScore cv rosterConfigs w
            = rosterConfigs.map (fun m => (m, w.data, cv))) := by
  refine ⟨ml_benchmark_eq_runRoster cvScore cv w, rfl, ?_⟩
  intro df wEnd h
  rw [ml_benchmark_eq_runRoster] at h
  cases hr : runRoster cvScore cv rosterConfigs w with
  | none => rw [hr] at h; exact absurd h (by simp)
  | some t =>
      exact rosterCalls_eq_of_some cvScore cv rosterConfigs w t.1 t.2
        (by rw [hr])

/-- Witness for C8 on a successful run under a concrete external behavior. -/
theorem c8_sequential_roster_witness :
    rosterCalls oneOracle 10 rosterConfigs demoWorld
      = rosterConfigs.map (fun m => (m, demoWorld.data, 10)) :=
  (c8_sequential_roster oneOracle 10 demoWorld).2.2 oneDf demoWorld
    (ml_benchmark_oneOracle 10 demoWorld)

/-- Claim C9: neither `score_and_time` nor `ml_benchmark` mutates the
dataset: the feature matrix and label array in the final world of a run are
the ones of the initial world. -/
theorem c9_dataset_preserved (cvScore : CvOracle) (model : ModelConfig)
    (cv : ℕ) (w : World) :
    (∀ r w1, score_and_time cvScore model cv w = some (r, w1) →
        w1.data = w.data)
      ∧ (∀ df wEnd, ml_benchmark cvScore cv w = some (df, wEnd) →
          wEnd.data = w.data) := by
  constructor
  · exact fun r w1 h => score_and_time_data cvScore model cv w r w1 h
  · intro df wEnd h
    rw [ml_benchmark_eq_runRoster] at h
    cases hr : runRoster cvScore cv rosterConfigs w with
    | none => rw [hr] at h; exact absurd h (by simp)
    | some t =>
        rw [hr] at h
        simp only [Option.map_some', Option.some.injEq, Prod.mk.injEq] at h
        rw [← h.2]
        exact runRoster_data cvScore cv rosterConfigs w t.1 t.2 (by rw [hr])

/-- Witness for C9 under an external behavior that advances the clock. -/
theorem c9_dataset_preserved_witness :
    ((⟨demoWorld.data, ⟨demoWorld.env.time + 1, demoWorld.env.rng⟩⟩ : World).data
        = demoWorld.data)
      ∧ demoWorld.data = demoWorld.data :=
  ⟨(c9_dataset_preserved halfOracle gbModel 10 demoWorld).1 ⟨1 / 2, 0, 1⟩
      ⟨demoWorld.data, ⟨demoWorld.env.time + 1, demoWorld.env.rng⟩⟩
      (score_and_time_halfOracle gbModel 10 demoWorld),
   (c9_dataset_preserved oneOracle gbModel 10 demoWorld).2 oneDf demoWorld
      (ml_benchmark_oneOracle 10 demoWorld)⟩

/- Helper lemmas for the aggregation-of-rounded-values claim. -/

theorem ml_benchmark_data_length (cvScore : CvOracle) (cv : ℕ) (w : World)
    (df : DataFrame) (wEnd : World)
    (h : ml_benchmark cvScore cv w = some (df, wEnd)) :
    df.data.length = 5 := by
  obtain ⟨_, _, s1, d1, s2, d2, s3, d3, s4, d4, s5, d5, hdata⟩ :=
    ml_benchmark_some cvScore cv w df wEnd h
  simp [hdata]

theorem ml_benchmark_row (cvScore : CvOracle) (cv : ℕ) (w : World)
    (df : DataFrame) (wEnd : World)
    (h : ml_benchmark cvScore cv w = some (df, wEnd)) (i : ℕ) (hi : i < 5) :
    ∃ s dur, df.data.getD i row0
      = ⟨round3 (npMean s), round3 (npStd s * 2), dur⟩ := by
  obtain ⟨_, _, s1, d1, s2, d2, s3, d3, s4, d4, s5, d5, hdata⟩ :=
    ml_benchmark_some cvScore cv w df wEnd h
  interval_cases i
  · exact ⟨s1, d1, by simp [hdata]⟩
  · exact ⟨s2, d2, by simp [hdata]⟩
  · exact ⟨s3, d3, by simp [hdata]⟩
  · exact ⟨s4, d4, by simp [hdata]⟩
  · exact ⟨s5, d5, by simp [hdata]⟩

theorem rows_choice (i : ℕ) :
    ∀ l : List DataFrame,
      (∀ t ∈ l, ∃ s dur, t.data.getD i row0
          = ⟨round3 (npMean s), round3 (npStd s * 2), dur⟩) →
      ∃ mss : List (List ℝ), mss.length = l.length
        ∧ l.map (fun t => (t.data.getD i row0).meanScore)
            = mss.map (fun s => round3 (npMean s))
        ∧ l.map (fun t => (t.data.getD i row0).scoreSpread)
            = mss.map (fun s => round3 (npStd s * 2)) := by
  intro l
  induction l with
  | nil => intro _; exact ⟨[], rfl, rfl, rfl⟩
  | cons t ts ih =>
      intro h
      obtain ⟨s, dur, hrow⟩ := h t (by simp)
      obtain ⟨mss, hlen, hmean, hspread⟩ := ih (fun u hu => h u (by simp [hu]))
      refine ⟨s :: mss, by simp [hlen], ?_, ?_⟩
      · simp only [List.map_cons]
        rw [hmean, hrow]
      · simp only [List.map_cons]
        rw [hspread, hrow]

theorem aggregate_cell_mean_spread (d : DataFrame) (ds : List DataFrame)
    (hlen : ∀ t ∈ d :: ds, t.data.length = 5) (i : ℕ) (hi : i < 5) :
    ((dfDivide (ds.foldl dfAdd d) (((d :: ds).length : ℕ) : ℝ)).data.getD i row0).meanScore
        = ((d :: ds).map (fun t => (t.data.getD i row0).meanScore)).sum
            / (((d :: ds).length : ℕ) : ℝ)
      ∧ ((dfDivide (ds.foldl dfAdd d) (((d :: ds).length : ℕ) : ℝ)).data.getD i row0).scoreSpread
        = ((d :: ds).map (fun t => (t.data.getD i row0).scoreSpread)).sum
            / (((d :: ds).length : ℕ) : ℝ) := by
  have hd5 : d.data.length = 5 := hlen d (by simp)
  have hds : ∀ t ∈ ds, t.data.length = 5 := fun t ht => hlen t (by simp [ht])
  have hflen : (ds.foldl dfAdd d).data.length = 5 :=
    foldl_dfAdd_length ds d hd5 hds
  rw [dfDivide_cell (ds.foldl dfAdd d) (((d :: ds).length : ℕ) : ℝ) i (by omega)]
  have hmean := foldl_dfAdd_cell EvalResult.meanScore (fun a b => rfl)
    ds d i hi hd5 hds
  have hspread := foldl_dfAdd_cell EvalResult.scoreSpread (fun a b => rfl)
    ds d i hi hd5 hds
  constructor
  · show EvalResult.meanScore ((ds.foldl dfAdd d).data.getD i row0) / _ = _
    rw [hmean]
    simp only [List.map_cons, List.sum_cons]
  · show EvalResult.scoreSpread ((ds.foldl dfAdd d).data.getD i row0) / _ = _
    rw [hspread]
    simp only [List.map_cons, List.sum_cons]

/-- Claim C10: because `score_and_time` rounds the mean and the spread to 3
decimal digits before they enter a benchmark row, every mean/spread cell of
a cross-dataset aggregate — the cell-wise sum of any collection of benchmark
tables divided by the table count, and in particular the notebook's
four-table `df_benchmark_total` — is the arithmetic mean of the
already-rounded per-dataset values; and averaging the rounded values is not
the same operation as rounding the mean of the raw values, as witnessed by
raw means `1/2500` and `1/1250`. -/
theorem c10_aggregate_of_rounded :
    (∀ (d : DataFrame) (ds : List DataFrame),
        (∀ t ∈ d :: ds, ∃ cvScore cv w wEnd,
            ml_benchmark cvScore cv w = some (t, wEnd)) →
        ∀ i, i < 5 →
          ∃ mss : List (List ℝ), mss.length = (d :: ds).length
            ∧ ((dfDivide (ds.foldl dfAdd d) (((d :: ds).length : ℕ) : ℝ)).data.getD i row0).meanScore
                = (mss.map (fun s => round3 (npMean s))).sum
                    / (((d :: ds).length : ℕ) : ℝ)
            ∧ ((dfDivide (ds.foldl dfAdd d) (((d :: ds).length : ℕ) : ℝ)).data.getD i row0).scoreSpread
                = (mss.map (fun s => round3 (npStd s * 2))).sum
                    / (((d :: ds).length : ℕ) : ℝ))
      ∧ (∀ (cv1 cv2 cv3 cv4 : CvOracle) (cv : ℕ) (w1 w2 w3 w4 : World)
          (t1 t2 t3 t4 : DataFrame) (e1 e2 e3 e4 : World),
          ml_benchmark cv1 cv w1 = some (t1, e1) →
          ml_benchmark cv2 cv w2 = some (t2, e2) →
          ml_benchmark cv3 cv w3 = some (t3, e3) →
          ml_benchmark cv4 cv w4 = some (t4, e4) →
          ∀ i, i < 5 →
            ∃ s1 s2 s3 s4 : List ℝ,
              ((df_benchmark_total t1 t2 t3 t4).data.getD i row0).meanScore
                  = (round3 (npMean s1) + round3 (npMean s2)
                      + round3 (npMean s3) + round3 (npMean s4)) / 4
                ∧ ((df_benchmark_total t1 t2 t3 t4).data.getD i row0).scoreSpread
                  = (round3 (npStd s1 * 2) + round3 (npStd s2 * 2)
                      + round3 (npStd s3 * 2) + round3 (npStd s4 * 2)) / 4)
      ∧ (round3 ((1 : ℝ) / 2500) + round3 ((1 : ℝ) / 1250)) / 2
          ≠ round3 (((1 : ℝ) / 2500 + (1 : ℝ) / 1250) / 2) := by
  refine ⟨?_, ?_, ?_⟩
  · intro d ds hruns i hi
    have hlen5 : ∀ t ∈ d :: ds, t.data.length = 5 := by
      intro t ht
      obtain ⟨cvS, k, w, wEnd, hrun⟩ := hruns t ht
      exact ml_benchmark_data_length cvS k w t wEnd hrun
    have hrows : ∀ t ∈ d :: ds, ∃ s dur, t.data.getD i row0
        = ⟨round3 (npMean s), round3 (npStd s * 2), dur⟩ := by
      intro t ht
      obtain ⟨cvS, k, w, wEnd, hrun⟩ := hruns t ht
      exact ml_benchmark_row cvS k w t wEnd hrun i hi
    obtain ⟨mss, hmlen, hmean, hspread⟩ := rows_choice i (d :: ds) hrows
    have hagg := aggregate_cell_mean_spread d ds hlen5 i hi
    exact ⟨mss, hmlen, by rw [hagg.1, hmean], by rw [hagg.2, hspread]⟩
  · intro cv1 cv2 cv3 cv4 cv w1 w2 w3 w4 t1 t2 t3 t4 e1 e2 e3 e4
      h1 h2 h3 h4 i hi
    obtain ⟨s1, d1, hr1⟩ := ml_benchmark_row cv1 cv w1 t1 e1 h1 i hi
    obtain ⟨s2, d2, hr2⟩ := ml_benchmark_row cv2 cv w2 t2 e2 h2 i hi
    obtain ⟨s3, d3, hr3⟩ := ml_benchmark_row cv3 cv w3 t3 e3 h3 i hi
    obtain ⟨s4, d4, hr4⟩ := ml_benchmark_row cv4 cv w4 t4 e4 h4 i hi
    have hlen5 : ∀ t ∈ t1 :: [t2, t3, t4], t.data.length = 5 := by
      intro t ht
      simp only [List.mem_cons] at ht
      rcases ht with rfl | rfl | rfl | rfl | h0
      · exact ml_benchmark_data_length cv1 cv w1 t e1 h1
      · exact ml_benchmark_data_length cv2 cv w2 t e2 h2
      · exact ml_benchmark_data_length cv3 cv w3 t e3 h3
      · exact ml_benchmark_data_length cv4 cv w4 t e4 h4
      · simp at h0
    have heq : df_benchmark_total t1 t2 t3 t4
        = dfDivide (([t2, t3, t4] : List DataFrame).foldl dfAdd t1)
            (((t1 :: [t2, t3, t4] : List DataFrame).length : ℕ) : ℝ) := by
      show dfDivide (dfAdd (dfAdd (dfAdd t1 t2) t3) t4) 4
        = dfDivide (dfAdd (dfAdd (dfAdd t1 t2) t3) t4)
            (((t1 :: [t2, t3, t4] : List DataFrame).length : ℕ) : ℝ)
      norm_num
    have hagg := aggregate_cell_mean_spread t1 [t2, t3, t4] hlen5 i hi
    refine ⟨s1, s2, s3, s4, ?_, ?_⟩
    · rw [heq, hagg.1]
      simp only [List.map_cons, List.map_nil, List.sum_cons, List.sum_nil,
        List.length_cons, List.length_nil, hr1, hr2, hr3, hr4]
      push_cast
      ring
    · rw [heq, hagg.2]
      simp only [List.map_cons, List.map_nil, List.sum_cons, List.sum_nil,
        List.length_cons, List.length_nil, hr1, hr2, hr3, hr4]
      push_cast
      ring
  · have h1 : round3 ((1 : ℝ) / 2500) = 0 := by
      have h := round3_eq_of_bounds ((1 : ℝ) / 2500) 0 (by norm_num) (by norm_num)
      simpa using h
    have h2 : round3 ((1 : ℝ) / 1250) = 1 / 1000 := by
      have h := round3_eq_of_bounds ((1 : ℝ) / 1250) 1 (by norm_num) (by norm_num)
      rw [h]
      norm_num
    have h3 : round3 (((1 : ℝ) / 2500 + (1 : ℝ) / 1250) / 2) = 1 / 1000 := by
      have h := round3_eq_of_bounds (((1 : ℝ) / 2500 + (1 : ℝ) / 1250) / 2) 1
        (by norm_num) (by norm_num)
      rw [h]
      norm_num
    rw [h1, h2, h3]
    norm_num

/-- Witness for C10 on four successful runs under a concrete external
behavior, aggregated by the notebook's `df_benchmark_total`. -/
theorem c10_aggregate_of_rounded_witness :
    ∃ s1 s2 s3 s4 : List ℝ,
      ((df_benchmark_total oneDf oneDf oneDf oneDf).data.getD 0 row0).meanScore
          = (round3 (npMean s1) + round3 (npMean s2)
              + round3 (npMean s3) + round3 (npMean s4)) / 4
        ∧ ((df_benchmark_total oneDf oneDf oneDf oneDf).data.getD 0 row0).scoreSpread
          = (round3 (npStd s1 * 2) + round3 (npStd s2 * 2)
              + round3 (npStd s3 * 2) + round3 (npStd s4 * 2)) / 4 :=
  c10_aggregate_of_rounded.2.1 oneOracle oneOracle oneOracle oneOracle 10
    demoWorld demoWorld demoWorld demoWorld oneDf oneDf oneDf oneDf
    demoWorld demoWorld demoWorld demoWorld
    (ml_benchmark_oneOracle 10 demoWorld) (ml_benchmark_oneOracle 10 demoWorld)
    (ml_benchmark_oneOracle 10 demoWorld) (ml_benchmark_oneOracle 10 demoWorld)
    0 (by norm_num)
